import Mathlib

/-! beyond-ftp: the `server` package

A shallow embedding of `server/server.go` (type `FTPServer` and its methods
`AcceptClient`, `Start`, `PassiveTransferFactory`, `ActiveTransferFactory`,
`Stop`, and the constructor `NewFTPServer`).

Conventions.

* A Go `int` is a 64-bit two's complement integer. It is an `Int` in
  `[-2^63, 2^63)` (`isInt64`), and the result of every addition and
  subtraction the code makes is reduced into that interval (`wrap64`).
* A Go call either returns or panics: `Outcome`.
* A Go `error` is `Option Error` (`none` is `nil`); a nilable pointer or
  interface is an `Option`.
* The Go standard library (`net`, `math/rand`, `time`) and the packages
  `config`, `transfer`, `services` are not part of the file; what the code
  calls in them is a parameter of the embedding (`Net`, the stream `rng`,
  the answers of the operating system).
-/

namespace Server

/-- Result of running a Go call: it panics, or it returns a value. -/
inductive Outcome (α : Type) where
  | panic : Outcome α
  | ret : α → Outcome α
deriving DecidableEq, Repr

/-- Go `error` values are compared by their message. -/
abbrev Error := String

/-- The values of a Go `int`: the 64-bit two's complement integers. -/
def isInt64 (x : Int) : Prop := -9223372036854775808 ≤ x ∧ x ≤ 9223372036854775807

instance (x : Int) : Decidable (isInt64 x) := by
  unfold isInt64
  infer_instance

/-- The result of Go `int` arithmetic: the mathematical result reduced modulo
`2^64` into `[-2^63, 2^63)`. -/
def wrap64 (x : Int) : Int :=
  (x + 9223372036854775808) % 18446744073709551616 - 9223372036854775808

/-- The type `config.PortRange`: `Start` and `End` are Go `int`s. -/
structure PortRange where
  Start : Int
  End : Int
deriving DecidableEq, Repr

/-- The Go expression `portRange.End - portRange.Start`, the width of the
range as the code computes it (lines 63 and 73). -/
def PortRange.width (portRange : PortRange) : Int :=
  wrap64 (portRange.End - portRange.Start)

/-- The part of `net.TCPAddr` the code depends on: the host it was resolved
from and the port. -/
structure TCPAddr where
  Host : String
  Port : Int
deriving DecidableEq, Repr

/-- A bound `*net.TCPListener`; `Port` is `Addr().(*net.TCPAddr).Port`. -/
structure TCPListener where
  Port : Int
deriving DecidableEq, Repr

/-- The two variants of `transfer.Handler` built in this file:
`&transfer.PassiveHandler{TCPListener: _, Listener: _}` and
`&transfer.ActiveHandler{RemoteAddr: _}` (the address is a pointer, so it may
be nil). -/
inductive Handler where
  | PassiveHandler (tcpListener : TCPListener) (listener : TCPListener)
  | ActiveHandler (remoteAddr : Option TCPAddr)
deriving DecidableEq, Repr

/-- The two calls into package `net` made by `PassiveTransferFactory`, as
parameters: `ResolveTCPAddr host port` stands for
`net.ResolveTCPAddr("tcp", fmt.Sprintf("%s:%d", host, port))` and `ListenTCP a`
for `net.ListenTCP("tcp", a)`. -/
structure Net where
  ResolveTCPAddr : String → Int → Except Error TCPAddr
  ListenTCP : TCPAddr → Except Error TCPListener

/-- The behaviour of package `net` over a fixed table of ports.
`hostOk h` tells whether the host part `h` resolves, `occupied p` whether
another listener already holds port `p`, and `ephemeral` is the port the
operating system would hand out for a bind to port 0 (if it has one).

* `net.ResolveTCPAddr` fails on an unresolvable host and on a port outside
  `0 .. 65535` ("invalid port"); otherwise the address carries the port asked
  for.
* `net.ListenTCP`: "If the Port field of laddr is 0, a port number is
  automatically chosen"; the listener then reports the chosen port. A bind to
  any other port fails when the port is occupied, and otherwise the listener
  reports that port. -/
def Net.os (hostOk : String → Bool) (occupied : Int → Bool) (ephemeral : Option Int) : Net where
  ResolveTCPAddr := fun host port =>
    if hostOk host = true ∧ 0 ≤ port ∧ port ≤ 65535 then .ok ⟨host, port⟩
    else .error "invalid address"
  ListenTCP := fun a =>
    if a.Port = 0 then
      match ephemeral with
      | some q =>
        if 1 ≤ q ∧ q ≤ 65535 ∧ occupied q = false then .ok ⟨q⟩
        else .error "address already in use"
      | none => .error "address already in use"
    else if occupied a.Port = true then .error "address already in use"
    else .ok ⟨a.Port⟩

/-- The call `rand.Intn(n)`: it panics when `n <= 0`, and otherwise returns a
number in `[0, n)`. `raw` is the next value of the global generator; every
result in `[0, n)` is the image of some `raw`. -/
def Intn (raw : Nat) (n : Int) : Outcome Int :=
  if n ≤ 0 then .panic else .ret ((raw : Int) % n)

/-- The local variables of `PassiveTransferFactory` that live across the loop,
with two ghost fields: `binds`, the ports on which `net.ListenTCP` was called
(in order), and `tries`, the number of loop iterations begun. -/
structure Vars where
  tcpListener : Option TCPListener
  err : Option Error
  localAddr : Option TCPAddr
  binds : List Int
  tries : Nat
deriving DecidableEq, Repr

/-- The variables as declared: all nil, nothing attempted. -/
def Vars.init : Vars := ⟨none, none, none, [], 0⟩

/-- The clamped number of tries:
`maxTry := End - Start; if maxTry < 10 { maxTry = 10 } else if maxTry > 1000 { maxTry = 1000 }`. -/
def maxTry (portRange : PortRange) : Int :=
  let m := portRange.width
  if m < 10 then 10 else if m > 1000 then 1000 else m

/-- The loop `for i := 0; i < maxTry; i++ { ... }`; the first argument is the
number of iterations left (`maxTry - i`), the second is `i`, which also
indexes the stream of the random generator. -/
def passiveLoop (net : Net) (rng : Nat → Nat) (listenHost : String) (portRange : PortRange) :
    Nat → Nat → Vars → Outcome Vars
  | 0, _, v => .ret v
  | n + 1, i, v =>
    match Intn (rng i) portRange.width with
    | .panic => .panic
    | .ret r =>
      let port := wrap64 (portRange.Start + r)
      match net.ResolveTCPAddr listenHost port with
      | .error e =>
        -- `continue`: `localAddr, err` were assigned, `tcpListener` was not
        passiveLoop net rng listenHost portRange n (i + 1)
          { v with localAddr := none, err := some e, tries := v.tries + 1 }
      | .ok a =>
        match net.ListenTCP a with
        | .ok l =>
          -- `break`
          .ret { tcpListener := some l, err := none, localAddr := some a,
                 binds := v.binds ++ [port], tries := v.tries + 1 }
        | .error e =>
          passiveLoop net rng listenHost portRange n (i + 1)
            { tcpListener := none, err := some e, localAddr := some a,
              binds := v.binds ++ [port], tries := v.tries + 1 }

/-- What `PassiveTransferFactory` returns: `(transfer.Handler, int, error)`. -/
structure Result where
  handler : Option Handler
  port : Int
  err : Option Error
deriving DecidableEq, Repr

/-- A finished call of `PassiveTransferFactory`: the values returned and the
ghost record of what was attempted. -/
structure Run where
  result : Result
  binds : List Int
  tries : Nat
deriving DecidableEq, Repr

/-- The method `FTPServer.PassiveTransferFactory`. It does not read or write
the receiver. -/
def PassiveTransferFactory (net : Net) (rng : Nat → Nat) (listenHost : String)
    (portRange : PortRange) : Outcome Run :=
  match passiveLoop net rng listenHost portRange (maxTry portRange).toNat 0 Vars.init with
  | .panic => .panic
  | .ret v =>
    match v.err, v.tcpListener with
    | none, some l =>
      .ret ⟨⟨some (.PassiveHandler l l), l.Port, none⟩, v.binds, v.tries⟩
    | _, _ =>
      -- `if err != nil || tcpListener == nil`
      .ret ⟨⟨none, 0, some "cannot listen"⟩, v.binds, v.tries⟩

/-- The value `clamp(w, 10, 1000)` of the specification. -/
def clamp (w lo hi : Int) : Int := if w < lo then lo else if w > hi then hi else w


/-- The port of a draw: `portRange.Start + rand.Intn(End - Start)` in Go `int`
arithmetic, for a range whose width is positive. -/
def pickPort (portRange : PortRange) (raw : Nat) : Int :=
  wrap64 (portRange.Start + (raw : Int) % portRange.width)

/-- One attempt at a port: resolve `host:port` and bind it. `some l` when both
calls succeed, `none` when either fails. -/
def tryPort (net : Net) (host : String) (port : Int) : Option TCPListener :=
  match net.ResolveTCPAddr host port with
  | .error _ => none
  | .ok a =>
    match net.ListenTCP a with
    | .ok l => some l
    | .error _ => none

/-! ## The server and its control listener -/

/-- The fields of `config.ServerSettings` read in this file. -/
structure ServerSettings where
  ListenHost : String
  ListenPort : Int
deriving DecidableEq, Repr

/-- The part of `config.Config` read by `NewFTPServer`: the backend selector
`c.Service`; whatever else the configuration holds is `rest`. -/
structure Config where
  Service : String
  rest : List String
deriving DecidableEq, Repr

/-- A storage handle (`types.Storager`), identified by a name. -/
structure Storager where
  name : String
deriving DecidableEq, Repr

/-- An accepted connection (`utils.Conn`); `RemoteAddr` is
`conn.RemoteAddr().String()`. -/
structure Conn where
  RemoteAddr : String
deriving DecidableEq, Repr

/-- A non-nil `net.Listener`: the listening socket it stands for. -/
structure NetListener where
  id : Nat
deriving DecidableEq, Repr

/-- The struct `FTPServer`. The field `Listener` is an interface value and may
be nil. -/
structure FTPServer where
  Listener : Option NetListener
  StartTime : Nat
  setting : ServerSettings
  storager : Storager
deriving DecidableEq, Repr

/-- The listening sockets of the process: `opened` holds, for each socket
created by `net.Listen` so far, the port it is bound to (socket `id` is the
entry at index `id`), and `closed` lists the sockets on which `Close` was
called, one entry per call, in order. -/
structure World where
  opened : List Int
  closed : List Nat
deriving DecidableEq, Repr

/-- A process that has not opened any socket. -/
def World.init : World := ⟨[], []⟩

/-- The sockets that were opened and never closed. -/
def World.openSockets (w : World) : List Nat :=
  (List.range w.opened.length).filter (fun id => !w.closed.contains id)

/-- Whether an open socket of the process is bound to port `p`. -/
def World.portInUse (w : World) (p : Int) : Bool :=
  w.openSockets.any (fun id => w.opened.getD id 0 == p)

/-- The method `AcceptClient`. `accept` is what the operating system answers to
`Accept()` on an open socket: a connection or an error; on a closed socket
`Accept()` returns an error. Calling a method of a nil interface value panics.
The result is `(utils.Conn, string, error)`. -/
def AcceptClient (accept : Except Error Conn) (s : FTPServer) (w : World) :
    Outcome (Option Conn × String × Option Error) :=
  match s.Listener with
  | none => .panic
  | some l =>
    let r : Except Error Conn :=
      if w.closed.contains l.id then .error "use of closed network connection" else accept
    match r with
    | .error err => .ret (none, "", some err)
    | .ok conn => .ret (some conn, conn.RemoteAddr, none)

/-- The call `net.Listen("tcp", host:port)` made by `Start`, over the sockets of
the process. `bindErr` is an error from outside the process (permission
denied, port held by another program), nil when there is none, and
`ephemeral` is the port the operating system assigns to a bind to port 0.
A port on which the process already listens cannot be bound again. The
result is the port of the new socket. -/
def Listen (bindErr : Option Error) (ephemeral : Int) (w : World) (port : Int) :
    Except Error Int :=
  match bindErr with
  | some err => .error err
  | none =>
    let p := if port = 0 then ephemeral else port
    if w.portInUse p then .error "address already in use" else .ok p

/-- The method `Start`. On a bind error `zap.L().Fatal` ends the process: the
result is `none`. Otherwise the new socket is stored in `Listener`; the
previous value of the field is overwritten, nothing is closed. -/
def Start (bindErr : Option Error) (ephemeral : Int) (s : FTPServer) (w : World) :
    Option (FTPServer × World) :=
  match Listen bindErr ephemeral w s.setting.ListenPort with
  | .error _ => none
  | .ok p =>
    some ({ s with Listener := some ⟨w.opened.length⟩ }, { w with opened := w.opened ++ [p] })

/-- The method `Stop`:
`if s.Listener != nil { l := s.Listener; s.Listener = nil; l.Close() }`. -/
def Stop (s : FTPServer) (w : World) : FTPServer × World :=
  match s.Listener with
  | some l => ({ s with Listener := none }, { w with closed := w.closed ++ [l.id] })
  | none => (s, w)

/-- The method `ActiveTransferFactory`: it builds
`&transfer.ActiveHandler{RemoteAddr: addr}` and touches neither the server nor
any socket. -/
def ActiveTransferFactory (s : FTPServer) (w : World) (addr : Option TCPAddr) :
    Handler × FTPServer × World :=
  (.ActiveHandler addr, s, w)

/-- The constructor `NewFTPServer`. Its collaborators are parameters:
`GetServerSetting` is `config.GetServerSetting`, `NewStoragerFromString` is
`services.NewStoragerFromString`, and `now` is `time.Now().UTC()`. The result
is `(*FTPServer, error)`. -/
def NewFTPServer (GetServerSetting : Config → ServerSettings)
    (NewStoragerFromString : String → Except Error Storager) (now : Nat) (c : Config) :
    Option FTPServer × Option Error :=
  let setting := GetServerSetting c
  match NewStoragerFromString c.Service with
  | .error err => (none, some err)
  | .ok storager =>
    (some { Listener := none, StartTime := now, setting := setting, storager := storager }, none)

/-- A call of `Start` (with the answers of the operating system) or of
`Stop`. -/
inductive Call where
  | Start (bindErr : Option Error) (ephemeral : Int)
  | Stop
deriving DecidableEq, Repr

/-- Run a sequence of `Start` and `Stop` calls; `none` when a `Start` ended
the process. -/
def run : List Call → FTPServer × World → Option (FTPServer × World)
  | [], st => some st
  | .Start bindErr ephemeral :: cs, st =>
    match Start bindErr ephemeral st.1 st.2 with
    | none => none
    | some st1 => run cs st1
  | .Stop :: cs, st => run cs (Stop st.1 st.2)

/-- The sequences in which `Start` is only called while the `Listener` field is
nil. -/
def startsWhenIdle : List Call → FTPServer × World → Bool
  | [], _ => true
  | .Start bindErr ephemeral :: cs, st =>
    st.1.Listener.isNone &&
      (match Start bindErr ephemeral st.1 st.2 with
       | none => true
       | some st1 => startsWhenIdle cs st1)
  | .Stop :: cs, st => startsWhenIdle cs (Stop st.1 st.2)

/-- The invariant of `Start`/`Stop` sequences for a server configured with
port `p0`: every open socket is the one held in `Listener`, and, when the
port is fixed, is bound to it. -/
def SingleListener (p0 : Int) (st : FTPServer × World) : Prop :=
  st.1.setting.ListenPort = p0 ∧
  (∀ id, id ∈ st.2.openSockets → st.1.Listener = some ⟨id⟩) ∧
  (p0 ≠ 0 → ∀ id, id ∈ st.2.openSockets → st.2.opened.getD id 0 = p0)

/-! ## The loop of `PassiveTransferFactory` -/

theorem Intn_of_pos (raw : Nat) {n : Int} (h : 0 < n) : Intn raw n = .ret ((raw : Int) % n) := by
  unfold Intn
  rw [if_neg (by omega)]

theorem Intn_of_nonpos (raw : Nat) {n : Int} (h : n ≤ 0) : Intn raw n = .panic := by
  unfold Intn
  rw [if_pos h]

theorem maxTry_eq_clamp (portRange : PortRange) :
    maxTry portRange = clamp portRange.width 10 1000 := rfl

theorem maxTry_bounds (portRange : PortRange) :
    10 ≤ maxTry portRange ∧ maxTry portRange ≤ 1000 := by
  unfold maxTry
  simp only
  split_ifs <;> omega

/-- With an empty (or reversed) range the first draw panics. -/
theorem passiveLoop_panic (net : Net) (rng : Nat → Nat) (host : String) (portRange : PortRange)
    (hw : portRange.width ≤ 0) (n i : Nat) (v : Vars) :
    passiveLoop net rng host portRange (n + 1) i v = .panic := by
  rw [passiveLoop, Intn_of_nonpos _ hw]

/-- A failed attempt leaves the loop running. -/
theorem passiveLoop_fail (net : Net) (rng : Nat → Nat) (host : String) (portRange : PortRange)
    (hw : 0 < portRange.width) :
    ∀ (n i : Nat) (v : Vars),
      (∀ j, j < n → tryPort net host (pickPort portRange (rng (i + j))) = none) →
      ∃ w, passiveLoop net rng host portRange n i v = .ret w ∧
        w.tries = v.tries + n ∧
        (v.tcpListener = none → w.tcpListener = none) ∧
        (0 < n → w.err ≠ none) ∧
        w.binds.length ≤ v.binds.length + n := by
  intro n
  induction n with
  | zero =>
    intro i v _
    exact ⟨v, rfl, rfl, id, fun h => absurd h (by omega), by omega⟩
  | succ n ih =>
    intro i v hall
    have h0 := hall 0 (by omega)
    have hrest : ∀ j, j < n → tryPort net host (pickPort portRange (rng (i + 1 + j))) = none := by
      intro j hj
      have := hall (j + 1) (by omega)
      rwa [show i + (j + 1) = i + 1 + j by omega] at this
    rw [passiveLoop, Intn_of_pos _ hw]
    simp only [Nat.add_zero, tryPort, pickPort] at h0
    simp only
    cases hr : net.ResolveTCPAddr host (wrap64 (portRange.Start + (rng i : Int) % portRange.width)) with
    | error e =>
      simp only
      obtain ⟨w, hw1, hw2, hw3, hw4, hw5⟩ := ih (i + 1)
        { v with localAddr := none, err := some e, tries := v.tries + 1 } hrest
      refine ⟨w, hw1, ?_, hw3, ?_, ?_⟩
      · simp only at hw2; omega
      · intro _
        rcases Nat.eq_zero_or_pos n with hn | hn
        · subst hn
          simp only [passiveLoop, Outcome.ret.injEq] at hw1
          subst hw1
          simp
        · exact hw4 hn
      · simp only at hw5; omega
    | ok a =>
      rw [hr] at h0
      simp only at h0 ⊢
      cases hl : net.ListenTCP a with
      | ok l => rw [hl] at h0; simp at h0
      | error e =>
        simp only
        obtain ⟨w, hw1, hw2, hw3, hw4, hw5⟩ := ih (i + 1)
          { tcpListener := none, err := some e, localAddr := some a,
            binds := v.binds ++ [wrap64 (portRange.Start + (rng i : Int) % portRange.width)],
            tries := v.tries + 1 } hrest
        refine ⟨w, hw1, ?_, fun _ => hw3 rfl, ?_, ?_⟩
        · simp only at hw2; omega
        · intro _
          rcases Nat.eq_zero_or_pos n with hn | hn
          · subst hn
            simp only [passiveLoop, Outcome.ret.injEq] at hw1
            subst hw1
            simp
          · exact hw4 hn
        · simp only [List.length_append, List.length_singleton] at hw5; omega

/-- When every attempt resolves and then fails to bind, each iteration calls
`net.ListenTCP` once, on the port it drew. -/
theorem passiveLoop_binds (net : Net) (rng : Nat → Nat) (host : String) (portRange : PortRange)
    (hw : 0 < portRange.width) :
    ∀ (n i : Nat) (v : Vars),
      (∀ j, j < n → ∃ a e, net.ResolveTCPAddr host (pickPort portRange (rng (i + j))) = .ok a ∧
        net.ListenTCP a = .error e) →
      ∃ w, passiveLoop net rng host portRange n i v = .ret w ∧
        w.binds = v.binds ++ (List.range n).map (fun j => pickPort portRange (rng (i + j))) := by
  intro n
  induction n with
  | zero =>
    intro i v _
    exact ⟨v, rfl, by simp⟩
  | succ n ih =>
    intro i v hall
    obtain ⟨a, e, hr, hl⟩ := hall 0 (by omega)
    have hrest : ∀ j, j < n → ∃ a e,
        net.ResolveTCPAddr host (pickPort portRange (rng (i + 1 + j))) = .ok a ∧
        net.ListenTCP a = .error e := by
      intro j hj
      have := hall (j + 1) (by omega)
      rwa [show i + (j + 1) = i + 1 + j by omega] at this
    rw [passiveLoop, Intn_of_pos _ hw]
    simp only [Nat.add_zero, pickPort] at hr
    simp only [hr, hl]
    obtain ⟨w, hw1, hw2⟩ := ih (i + 1)
      { tcpListener := none, err := some e, localAddr := some a,
        binds := v.binds ++ [wrap64 (portRange.Start + (rng i : Int) % portRange.width)],
        tries := v.tries + 1 } hrest
    refine ⟨w, hw1, ?_⟩
    rw [hw2, List.range_succ_eq_map, List.map_cons, List.map_map]
    simp only [List.append_assoc, List.singleton_append, Nat.add_zero, pickPort]
    congr 2
    apply List.map_congr_left
    intro j _
    simp only [Function.comp, Nat.succ_eq_add_one]
    rw [show i + (j + 1) = i + 1 + j by omega]

/-- The loop stops at the first attempt that resolves and binds: it keeps that
listener, clears `err`, and has begun exactly `k + 1` iterations, the last
bind being the one on the drawn port. -/
theorem passiveLoop_first (net : Net) (rng : Nat → Nat) (host : String) (portRange : PortRange)
    (hw : 0 < portRange.width) (l : TCPListener) :
    ∀ (k n i : Nat) (v : Vars), k < n →
      (∀ j, j < k → tryPort net host (pickPort portRange (rng (i + j))) = none) →
      tryPort net host (pickPort portRange (rng (i + k))) = some l →
      ∃ w, passiveLoop net rng host portRange n i v = .ret w ∧
        w.tcpListener = some l ∧ w.err = none ∧ w.tries = v.tries + k + 1 ∧
        w.binds.getLast? = some (pickPort portRange (rng (i + k))) := by
  intro k
  induction k with
  | zero =>
    intro n i v hn _ hk
    obtain ⟨n, rfl⟩ : ∃ m, n = m + 1 := ⟨n - 1, by omega⟩
    rw [passiveLoop, Intn_of_pos _ hw]
    simp only [Nat.add_zero, tryPort, pickPort] at hk ⊢
    cases hr : net.ResolveTCPAddr host (wrap64 (portRange.Start + (rng i : Int) % portRange.width)) with
    | error e => rw [hr] at hk; simp at hk
    | ok a =>
      rw [hr] at hk
      simp only at hk ⊢
      cases hl : net.ListenTCP a with
      | error e => rw [hl] at hk; simp at hk
      | ok l1 =>
        rw [hl] at hk
        simp only [Option.some.injEq] at hk
        subst hk
        exact ⟨_, rfl, rfl, rfl, rfl, by simp⟩
  | succ k ih =>
    intro n i v hn hall hk
    obtain ⟨n, rfl⟩ : ∃ m, n = m + 1 := ⟨n - 1, by omega⟩
    have h0 := hall 0 (by omega)
    have hrest : ∀ j, j < k → tryPort net host (pickPort portRange (rng (i + 1 + j))) = none := by
      intro j hj
      have := hall (j + 1) (by omega)
      rwa [show i + (j + 1) = i + 1 + j by omega] at this
    have hk1 : tryPort net host (pickPort portRange (rng (i + 1 + k))) = some l := by
      rwa [show i + (k + 1) = i + 1 + k by omega] at hk
    rw [passiveLoop, Intn_of_pos _ hw]
    simp only [Nat.add_zero, tryPort, pickPort] at h0
    simp only
    cases hr : net.ResolveTCPAddr host (wrap64 (portRange.Start + (rng i : Int) % portRange.width)) with
    | error e =>
      simp only
      obtain ⟨w, hw1, hw2, hw3, hw4, hw5⟩ := ih n (i + 1)
        { v with localAddr := none, err := some e, tries := v.tries + 1 } (by omega) hrest hk1
      refine ⟨w, hw1, hw2, hw3, ?_, ?_⟩
      · simp only at hw4; omega
      · rw [hw5, show i + (k + 1) = i + 1 + k by omega]
    | ok a =>
      rw [hr] at h0
      simp only at h0 ⊢
      cases hl : net.ListenTCP a with
      | ok l1 => rw [hl] at h0; simp at h0
      | error e =>
        simp only
        obtain ⟨w, hw1, hw2, hw3, hw4, hw5⟩ := ih n (i + 1)
          { tcpListener := none, err := some e, localAddr := some a,
            binds := v.binds ++ [wrap64 (portRange.Start + (rng i : Int) % portRange.width)],
            tries := v.tries + 1 } (by omega) hrest hk1
        refine ⟨w, hw1, hw2, hw3, ?_, ?_⟩
        · simp only at hw4; omega
        · rw [hw5, show i + (k + 1) = i + 1 + k by omega]

/-! ## `PassiveTransferFactory` as a whole -/

theorem maxTry_toNat_pos (portRange : PortRange) : ∃ m, (maxTry portRange).toNat = m + 1 := by
  have h := (maxTry_bounds portRange).1
  exact ⟨(maxTry portRange).toNat - 1, by omega⟩

/-- An empty or reversed range makes `rand.Intn` panic in the first iteration. -/
theorem PassiveTransferFactory_panic (net : Net) (rng : Nat → Nat) (host : String)
    (portRange : PortRange) (hw : portRange.width ≤ 0) :
    PassiveTransferFactory net rng host portRange = .panic := by
  obtain ⟨m, hm⟩ := maxTry_toNat_pos portRange
  unfold PassiveTransferFactory
  rw [hm, passiveLoop_panic net rng host portRange hw]

/-- If no attempt resolves and binds, all `maxTry` iterations run and the call
returns `nil, 0, errors.New("cannot listen")`. -/
theorem PassiveTransferFactory_fail (net : Net) (rng : Nat → Nat) (host : String)
    (portRange : PortRange) (hw : 0 < portRange.width)
    (hall : ∀ j, j < (maxTry portRange).toNat →
      tryPort net host (pickPort portRange (rng j)) = none) :
    ∃ binds, PassiveTransferFactory net rng host portRange =
      .ret ⟨⟨none, 0, some "cannot listen"⟩, binds, (maxTry portRange).toNat⟩ := by
  obtain ⟨w, h1, h2, h3, _, _⟩ := passiveLoop_fail net rng host portRange hw
    (maxTry portRange).toNat 0 Vars.init (by simpa using hall)
  have h3 : w.tcpListener = none := h3 rfl
  have h2 : w.tries = (maxTry portRange).toNat := by simpa [Vars.init] using h2
  refine ⟨w.binds, ?_⟩
  unfold PassiveTransferFactory
  rw [h1]
  simp only [h3, h2]
  cases w.err <;> rfl

/-- If attempt `k` is the first to resolve and bind, the call returns the
handler of that listener and the port the listener reports, after exactly
`k + 1` iterations. -/
theorem PassiveTransferFactory_first (net : Net) (rng : Nat → Nat) (host : String)
    (portRange : PortRange) (hw : 0 < portRange.width)
    (k : Nat) (l : TCPListener) (hk : k < (maxTry portRange).toNat)
    (hbefore : ∀ j, j < k → tryPort net host (pickPort portRange (rng j)) = none)
    (hat : tryPort net host (pickPort portRange (rng k)) = some l) :
    ∃ binds, PassiveTransferFactory net rng host portRange =
        .ret ⟨⟨some (.PassiveHandler l l), l.Port, none⟩, binds, k + 1⟩ ∧
      binds.getLast? = some (pickPort portRange (rng k)) := by
  obtain ⟨w, h1, h2, h3, h4, h5⟩ := passiveLoop_first net rng host portRange hw l k
    (maxTry portRange).toNat 0 Vars.init hk (by simpa using hbefore) (by simpa using hat)
  refine ⟨w.binds, ?_, by simpa using h5⟩
  unfold PassiveTransferFactory
  rw [h1]
  simp only [h2, h3]
  simp [h4, Vars.init]

/-- Every call on a range of positive width is in one of the two cases above. -/
theorem PassiveTransferFactory_cases (net : Net) (rng : Nat → Nat) (host : String)
    (portRange : PortRange) (hw : 0 < portRange.width) :
    (∃ binds, PassiveTransferFactory net rng host portRange =
      .ret ⟨⟨none, 0, some "cannot listen"⟩, binds, (maxTry portRange).toNat⟩ ∧
      ∀ j, j < (maxTry portRange).toNat →
        tryPort net host (pickPort portRange (rng j)) = none) ∨
    (∃ k l binds, k < (maxTry portRange).toNat ∧
      (∀ j, j < k → tryPort net host (pickPort portRange (rng j)) = none) ∧
      tryPort net host (pickPort portRange (rng k)) = some l ∧
      PassiveTransferFactory net rng host portRange =
        .ret ⟨⟨some (.PassiveHandler l l), l.Port, none⟩, binds, k + 1⟩ ∧
      binds.getLast? = some (pickPort portRange (rng k))) := by
  by_cases hex : ∃ k, k < (maxTry portRange).toNat ∧
      tryPort net host (pickPort portRange (rng k)) ≠ none
  · right
    have hk := Nat.find_spec hex
    have hmin := fun j (hj : j < Nat.find hex) => Nat.find_min hex hj
    obtain ⟨l, hl⟩ := Option.ne_none_iff_exists'.mp hk.2
    have hbefore : ∀ j, j < Nat.find hex →
        tryPort net host (pickPort portRange (rng j)) = none := by
      intro j hj
      by_contra hne
      exact hmin j hj ⟨by omega, hne⟩
    obtain ⟨binds, h1, h2⟩ := PassiveTransferFactory_first net rng host portRange hw
      (Nat.find hex) l hk.1 hbefore hl
    exact ⟨Nat.find hex, l, binds, hk.1, hbefore, hl, h1, h2⟩
  · left
    have hall : ∀ j, j < (maxTry portRange).toNat →
        tryPort net host (pickPort portRange (rng j)) = none := by
      intro j hj
      by_contra hne
      exact hex ⟨j, hj, hne⟩
    obtain ⟨binds, h⟩ := PassiveTransferFactory_fail net rng host portRange hw hall
    exact ⟨binds, h, hall⟩


/-! ## Package `net` over a fixed table of ports -/

/-- A draw on a range whose bounds are Go `int`s, whose width is positive and
which is not reversed lies in `[Start, End)`: nothing overflows. -/
theorem pickPort_mem (portRange : PortRange) (raw : Nat)
    (hS : isInt64 portRange.Start) (hE : isInt64 portRange.End)
    (hle : ¬ portRange.End < portRange.Start) (hw : 0 < portRange.width) :
    portRange.Start ≤ pickPort portRange raw ∧ pickPort portRange raw < portRange.End := by
  have h1 := Int.emod_nonneg (raw : Int) (ne_of_gt hw)
  have h2 := Int.emod_lt_of_pos (raw : Int) hw
  unfold pickPort
  generalize (raw : Int) % portRange.width = r at h1 h2 ⊢
  unfold PortRange.width wrap64 at *
  unfold isInt64 at hS hE
  omega

/-- A successful attempt under `Net.os`: the port asked for is a TCP port, the
listener reports a free port, and it reports the port asked for unless that
port is 0. -/
theorem tryPort_os (hostOk : String → Bool) (occupied : Int → Bool) (ephemeral : Option Int)
    (host : String) (p : Int) (l : TCPListener)
    (h : tryPort (Net.os hostOk occupied ephemeral) host p = some l) :
    0 ≤ p ∧ p ≤ 65535 ∧ occupied l.Port = false ∧ (p ≠ 0 → l.Port = p) := by
  unfold tryPort Net.os at h
  simp only at h
  by_cases hres : hostOk host = true ∧ 0 ≤ p ∧ p ≤ 65535
  · rw [if_pos hres] at h
    simp only at h
    by_cases hp : p = 0
    · rw [if_pos hp] at h
      cases ephemeral with
      | none => simp at h
      | some q =>
        simp only at h
        by_cases hq : 1 ≤ q ∧ q ≤ 65535 ∧ occupied q = false
        · rw [if_pos hq] at h
          simp only [Option.some.injEq] at h
          subst h
          exact ⟨hres.2.1, hres.2.2, hq.2.2, fun hne => absurd hp hne⟩
        · rw [if_neg hq] at h
          simp at h
    · rw [if_neg hp] at h
      by_cases ho : occupied p = true
      · rw [if_pos ho] at h
        simp at h
      · rw [if_neg ho] at h
        simp only [Option.some.injEq] at h
        subst h
        exact ⟨hres.2.1, hres.2.2, by simpa using ho, fun _ => rfl⟩
  · rw [if_neg hres] at h
    simp at h

/-! ## The claims on `PassiveTransferFactory` -/

/-- On a range whose width `End - Start`, as Go computes it, is at least 1,
when every attempt resolves and then fails to bind, `PassiveTransferFactory`
calls `net.ListenTCP` exactly `clamp(End - Start, 10, 1000)` times, once in
each iteration, and returns. -/
theorem bind_attempts_eq_clamp (net : Net) (rng : Nat → Nat) (host : String)
    (portRange : PortRange) (hw : 1 ≤ portRange.width)
    (hall : ∀ j, j < (maxTry portRange).toNat → ∃ a e,
      net.ResolveTCPAddr host (pickPort portRange (rng j)) = .ok a ∧
      net.ListenTCP a = .error e) :
    ∃ run, PassiveTransferFactory net rng host portRange = .ret run ∧
      (run.binds.length : Int) = clamp portRange.width 10 1000 ∧
      run.binds = (List.range (maxTry portRange).toNat).map
        (fun j => pickPort portRange (rng j)) := by
  obtain ⟨w, h1, h2⟩ := passiveLoop_binds net rng host portRange (by omega)
    (maxTry portRange).toNat 0 Vars.init (by simpa using hall)
  have h2 : w.binds = (List.range (maxTry portRange).toNat).map
      (fun j => pickPort portRange (rng j)) := by simpa [Vars.init] using h2
  have hlen : (w.binds.length : Int) = clamp portRange.width 10 1000 := by
    rw [h2, List.length_map, List.length_range, ← maxTry_eq_clamp]
    have := (maxTry_bounds portRange).1
    omega
  unfold PassiveTransferFactory
  rw [h1]
  obtain ⟨tl, er, la, bs, tr⟩ := w
  cases er <;> cases tl <;> exact ⟨_, rfl, hlen, h2⟩

/-- C1, at the width 0 named by the claim: on the port range {50000, 50000}
`PassiveTransferFactory` panics, whatever the network and the random
generator do, because `rand.Intn(0)` panics in the first iteration; it makes
no bind attempt at all, where the claim says clamp(0, 10, 1000) = 10. -/
theorem passive_width_zero_panics (net : Net) (rng : Nat → Nat) (host : String) :
    PassiveTransferFactory net rng host ⟨50000, 50000⟩ = .panic ∧
      clamp ((50000 : Int) - 50000) 10 1000 = 10 :=
  ⟨PassiveTransferFactory_panic net rng host ⟨50000, 50000⟩ (by decide), by decide⟩

/-- C2 as stated fails: with the range {0, 5}, a draw of port 0 and a bind to
port 0 for which the operating system chooses port 40000, the call returns a
nil error and the port 40000, which is not in `[0, 5)`. -/
theorem passive_port_zero_leaves_range :
    PassiveTransferFactory (Net.os (fun _ => true) (fun _ => false) (some 40000))
        (fun _ => 0) "" ⟨0, 5⟩ =
      .ret ⟨⟨some (.PassiveHandler ⟨40000⟩ ⟨40000⟩), 40000, none⟩, [0], 1⟩ ∧
    ¬ ((0 : Int) ≤ 40000 ∧ (40000 : Int) < 5) := by
  constructor
  · decide
  · decide

/-- C2, amended: for every bind host, every network table, every sequence of
random picks and every port range (of Go `int`s), if `PassiveTransferFactory`
returns a nil error then the port it returns satisfies `Start <= port < End`,
unless the port that was bound is port 0 (the operating system then chooses
the port) or the range is reversed (`End < Start`; the call only runs on such
a range when `End - Start` overflows to a positive width). -/
theorem passive_port_in_range (hostOk : String → Bool) (occupied : Int → Bool)
    (ephemeral : Option Int) (rng : Nat → Nat) (host : String) (portRange : PortRange)
    (run : Run) (hS : isInt64 portRange.Start) (hE : isInt64 portRange.End)
    (hrun : PassiveTransferFactory (Net.os hostOk occupied ephemeral) rng host portRange =
      .ret run)
    (herr : run.result.err = none) :
    (portRange.Start ≤ run.result.port ∧ run.result.port < portRange.End) ∨
      run.binds.getLast? = some 0 ∨ portRange.End < portRange.Start := by
  by_cases hw : 0 < portRange.width
  · rcases PassiveTransferFactory_cases (Net.os hostOk occupied ephemeral) rng host portRange hw
      with ⟨binds, h, _⟩ | ⟨k, l, binds, _, _, hat, h, hlast⟩
    · rw [h] at hrun
      simp only [Outcome.ret.injEq] at hrun
      subst hrun
      simp at herr
    · rw [h] at hrun
      simp only [Outcome.ret.injEq] at hrun
      subst hrun
      by_cases hrev : portRange.End < portRange.Start
      · exact Or.inr (Or.inr hrev)
      · by_cases hz : pickPort portRange (rng k) = 0
        · exact Or.inr (Or.inl (by rw [hlast, hz]))
        · left
          have hmem := pickPort_mem portRange (rng k) hS hE hrev hw
          have hos := tryPort_os hostOk occupied ephemeral host _ l hat
          simp only
          rw [hos.2.2.2 hz]
          exact hmem
  · rw [PassiveTransferFactory_panic _ rng host portRange (by omega)] at hrun
    cases hrun

/-- Witness for `passive_port_in_range`: range {50000, 50005} with port 50002
occupied; the draws 50002, 50003 end at port 50003. -/
theorem passive_port_in_range_witness :
    isInt64 50000 ∧ isInt64 50005 ∧
    PassiveTransferFactory (Net.os (fun _ => true) (fun p => p == 50002) none)
        (fun i => 2 + i) "" ⟨50000, 50005⟩ =
      .ret ⟨⟨some (.PassiveHandler ⟨50003⟩ ⟨50003⟩), 50003, none⟩, [50002, 50003], 2⟩ ∧
    (((50000 : Int) ≤ 50003 ∧ (50003 : Int) < 50005) ∨
      [(50002 : Int), 50003].getLast? = some 0 ∨ (50005 : Int) < 50000) :=
  ⟨by decide, by decide, by decide,
   passive_port_in_range (fun _ => true) (fun p => p == 50002) none (fun i => 2 + i) ""
     ⟨50000, 50005⟩ ⟨⟨some (.PassiveHandler ⟨50003⟩ ⟨50003⟩), 50003, none⟩, [50002, 50003], 2⟩
     (by decide) (by decide) (by decide) rfl⟩

/-- The reversed range {65535, -2^63 + 65534}: in Go `End - Start` overflows to
`2^63 - 1`, the call runs, and a draw of 0 binds port 65535, which is returned
with a nil error although the interval `[Start, End)` is empty. -/
theorem passive_reversed_range_runs :
    PortRange.width ⟨65535, -9223372036854710274⟩ = 9223372036854775807 ∧
    PassiveTransferFactory (Net.os (fun _ => true) (fun _ => false) none)
        (fun _ => 0) "" ⟨65535, -9223372036854710274⟩ =
      .ret ⟨⟨some (.PassiveHandler ⟨65535⟩ ⟨65535⟩), 65535, none⟩, [65535], 1⟩ := by
  constructor
  · decide
  · decide

/-- The range {-2^63, 2^63 - 1}: in Go `End - Start` overflows to `-1`, and the
call panics in `rand.Intn(-1)`. -/
theorem passive_full_range_panics (net : Net) (rng : Nat → Nat) (host : String) :
    PortRange.width ⟨-9223372036854775808, 9223372036854775807⟩ = -1 ∧
    PassiveTransferFactory net rng host ⟨-9223372036854775808, 9223372036854775807⟩ =
      .panic :=
  ⟨by decide, PassiveTransferFactory_panic net rng host _ (by decide)⟩

/-- C3: for every port range of width at least 1 (the width is the Go `int`
`portRange.End - portRange.Start`, wrap-around included) in which every
attempt fails (address resolution fails, or the bind fails),
`PassiveTransferFactory` returns normally (it does not panic) a nil handler,
port 0 and the error "cannot listen", after all `clamp(w, 10, 1000)`
iterations. -/
theorem passive_all_fail_cannot_listen (net : Net) (rng : Nat → Nat) (host : String)
    (portRange : PortRange) (hw : 1 ≤ portRange.width)
    (hall : ∀ j, j < (maxTry portRange).toNat →
      tryPort net host (pickPort portRange (rng j)) = none) :
    ∃ binds, PassiveTransferFactory net rng host portRange =
      .ret ⟨⟨none, 0, some "cannot listen"⟩, binds, (maxTry portRange).toNat⟩ :=
  PassiveTransferFactory_fail net rng host portRange (by omega) hall


/-- Witness for `passive_all_fail_cannot_listen`: every port of the range
{50000, 50005} is occupied. -/
theorem passive_all_fail_cannot_listen_witness :
    1 ≤ PortRange.width ⟨50000, 50005⟩ ∧
    ∃ binds, PassiveTransferFactory (Net.os (fun _ => true) (fun _ => true) none)
        (fun i => i) "" ⟨50000, 50005⟩ =
      .ret ⟨⟨none, 0, some "cannot listen"⟩, binds, 10⟩ :=
  ⟨by decide,
   passive_all_fail_cannot_listen (Net.os (fun _ => true) (fun _ => true) none)
     (fun i => i) "" ⟨50000, 50005⟩ (by decide) (by decide)⟩

/-- C7 as stated fails: with the range {0, 20}, port 3 occupied and the draws
3, 0, the first pick that resolves and binds is port 0, and the call returns
the port 40000 that the operating system chose, not the port of that pick. -/
theorem passive_returns_chosen_port_not_pick :
    tryPort (Net.os (fun _ => true) (fun p => p == 3) (some 40000)) ""
        (pickPort ⟨0, 20⟩ 3) = none ∧
    tryPort (Net.os (fun _ => true) (fun p => p == 3) (some 40000)) ""
        (pickPort ⟨0, 20⟩ 0) = some ⟨40000⟩ ∧
    pickPort ⟨0, 20⟩ 0 = 0 ∧
    PassiveTransferFactory (Net.os (fun _ => true) (fun p => p == 3) (some 40000))
        (fun i => 3 - 3 * i) "" ⟨0, 20⟩ =
      .ret ⟨⟨some (.PassiveHandler ⟨40000⟩ ⟨40000⟩), 40000, none⟩, [3, 0], 2⟩ ∧
    (40000 : Int) ≠ pickPort ⟨0, 20⟩ 0 := by
  refine ⟨by decide, by decide, by decide, by decide, by decide⟩

/-- C7, amended: for every port range of width `w >= 1` (the Go `int`
`portRange.End - portRange.Start`, wrap-around included), every sequence of
random picks and every set of occupied ports, `PassiveTransferFactory` stops
at the first success. It returns a nil error exactly when one of the first
`clamp(w, 10, 1000)` picked ports resolves and binds; it then returns the
handler of the listener bound at the first such pick and the port that
listener reports, which is the picked port whenever the pick is not port 0,
after exactly `k + 1` iterations, the last bind being that pick; otherwise it
returns the error "cannot listen"; and it never returns an occupied port. -/
theorem passive_stops_at_first_success (hostOk : String → Bool) (occupied : Int → Bool)
    (ephemeral : Option Int) (rng : Nat → Nat) (host : String) (portRange : PortRange)
    (hw : 1 ≤ portRange.width) :
    ((∃ run, PassiveTransferFactory (Net.os hostOk occupied ephemeral) rng host portRange =
          .ret run ∧ run.result.err = none) ↔
      ∃ k, k < (maxTry portRange).toNat ∧
        tryPort (Net.os hostOk occupied ephemeral) host (pickPort portRange (rng k)) ≠ none) ∧
    (∀ k l, k < (maxTry portRange).toNat →
      (∀ j, j < k →
        tryPort (Net.os hostOk occupied ephemeral) host (pickPort portRange (rng j)) = none) →
      tryPort (Net.os hostOk occupied ephemeral) host (pickPort portRange (rng k)) = some l →
      ∃ binds, PassiveTransferFactory (Net.os hostOk occupied ephemeral) rng host portRange =
          .ret ⟨⟨some (.PassiveHandler l l), l.Port, none⟩, binds, k + 1⟩ ∧
        binds.getLast? = some (pickPort portRange (rng k)) ∧
        (pickPort portRange (rng k) ≠ 0 → l.Port = pickPort portRange (rng k))) ∧
    ((∀ k, k < (maxTry portRange).toNat →
        tryPort (Net.os hostOk occupied ephemeral) host (pickPort portRange (rng k)) = none) →
      ∃ binds, PassiveTransferFactory (Net.os hostOk occupied ephemeral) rng host portRange =
        .ret ⟨⟨none, 0, some "cannot listen"⟩, binds, (maxTry portRange).toNat⟩) ∧
    (∀ run, PassiveTransferFactory (Net.os hostOk occupied ephemeral) rng host portRange =
        .ret run → run.result.err = none → occupied run.result.port = false) := by
  have hw0 : 0 < portRange.width := by omega
  refine ⟨?_, ?_, ?_, ?_⟩
  · constructor
    · rintro ⟨run, hrun, herr⟩
      rcases PassiveTransferFactory_cases (Net.os hostOk occupied ephemeral) rng host portRange
        hw0 with ⟨binds, h, _⟩ | ⟨k, l, binds, hk, _, hat, _, _⟩
      · rw [h] at hrun
        simp only [Outcome.ret.injEq] at hrun
        subst hrun
        simp at herr
      · exact ⟨k, hk, by rw [hat]; simp⟩
    · rintro ⟨k, hk, hne⟩
      rcases PassiveTransferFactory_cases (Net.os hostOk occupied ephemeral) rng host portRange
        hw0 with ⟨_, _, hall⟩ | ⟨_, l, binds, _, _, _, h, _⟩
      · exact absurd (hall k hk) hne
      · exact ⟨_, h, rfl⟩
  · intro k l hk hbefore hat
    obtain ⟨binds, h1, h2⟩ := PassiveTransferFactory_first (Net.os hostOk occupied ephemeral)
      rng host portRange hw0 k l hk hbefore hat
    exact ⟨binds, h1, h2, (tryPort_os hostOk occupied ephemeral host _ l hat).2.2.2⟩
  · intro hall
    exact PassiveTransferFactory_fail (Net.os hostOk occupied ephemeral) rng host portRange
      hw0 hall
  · intro run hrun herr
    rcases PassiveTransferFactory_cases (Net.os hostOk occupied ephemeral) rng host portRange
      hw0 with ⟨binds, h, _⟩ | ⟨k, l, binds, _, _, hat, h, _⟩
    · rw [h] at hrun
      simp only [Outcome.ret.injEq] at hrun
      subst hrun
      simp at herr
    · rw [h] at hrun
      simp only [Outcome.ret.injEq] at hrun
      subst hrun
      exact (tryPort_os hostOk occupied ephemeral host _ l hat).2.2.1

/-- Witness for `passive_stops_at_first_success`, on the scenario of the
specification: range {50000, 50005} with port 50002 occupied and the draws
50002, 50003; the port returned, 50003, is not the occupied one. -/
theorem passive_stops_at_first_success_witness :
    1 ≤ PortRange.width ⟨50000, 50005⟩ ∧
    PassiveTransferFactory (Net.os (fun _ => true) (fun p => p == 50002) none)
        (fun i => 2 + i) "" ⟨50000, 50005⟩ =
      .ret ⟨⟨some (.PassiveHandler ⟨50003⟩ ⟨50003⟩), 50003, none⟩, [50002, 50003], 2⟩ ∧
    ((50003 : Int) == 50002) = false :=
  ⟨by decide, by decide,
   (passive_stops_at_first_success (fun _ => true) (fun p => p == 50002) none
      (fun i => 2 + i) "" ⟨50000, 50005⟩ (by decide)).2.2.2
     ⟨⟨some (.PassiveHandler ⟨50003⟩ ⟨50003⟩), 50003, none⟩, [50002, 50003], 2⟩
     (by decide) rfl⟩


/-! ## The claims on the control listener -/

/-- C4, on the state `Stop` leaves behind: for every server state, every set
of sockets and every answer of the operating system, `AcceptClient` called
after `Stop` panics (the `Listener` field is nil and `s.Listener.Accept()` is
a method call on a nil interface value); it returns no error value. -/
theorem accept_after_stop_panics (accept : Except Error Conn) (s : FTPServer) (w : World) :
    (Stop s w).1.Listener = none ∧
      AcceptClient accept (Stop s w).1 (Stop s w).2 = .panic := by
  unfold Stop
  cases hl : s.Listener with
  | none => simp [AcceptClient, hl]
  | some l => simp [AcceptClient]

/-- C5: `Stop` is a total function of the server state; for every state it
leaves `Listener` nil; on a state whose `Listener` is nil it changes nothing
and closes nothing; hence a second `Stop` changes nothing, and across
`Stop; Stop` the listener that was held is closed exactly once (the record of
`Close` calls grows by that one socket). -/
theorem stop_idempotent (s : FTPServer) (w : World) :
    (Stop s w).1.Listener = none ∧
    (s.Listener = none → Stop s w = (s, w)) ∧
    Stop (Stop s w).1 (Stop s w).2 = Stop s w ∧
    (∀ l, s.Listener = some l →
      (Stop s w).2.closed = w.closed ++ [l.id] ∧
      (Stop (Stop s w).1 (Stop s w).2).2.closed = w.closed ++ [l.id] ∧
      (Stop (Stop s w).1 (Stop s w).2).2.opened = w.opened) := by
  unfold Stop
  cases hl : s.Listener with
  | none => simp [hl]
  | some l => simp

/-- C8: when the resolver fails on the backend selector, `NewFTPServer` returns
a nil server together with the resolver's error; when it resolves, the
server returned holds the resolved storage handle and the settings of the
configuration, has a nil `Listener`, and comes with a nil error. -/
theorem new_server_resolves_first (GetServerSetting : Config → ServerSettings)
    (NewStoragerFromString : String → Except Error Storager) (now : Nat) (c : Config) :
    (∀ err, NewStoragerFromString c.Service = .error err →
      NewFTPServer GetServerSetting NewStoragerFromString now c = (none, some err)) ∧
    (∀ storager, NewStoragerFromString c.Service = .ok storager →
      ∃ s, NewFTPServer GetServerSetting NewStoragerFromString now c = (some s, none) ∧
        s.storager = storager ∧ s.setting = GetServerSetting c ∧ s.Listener = none ∧
        s.StartTime = now) := by
  unfold NewFTPServer
  constructor
  · intro err h
    simp [h]
  · intro storager h
    simp [h]

/-- C9: for every server state, every set of sockets and every remote address
(a nil one included), `ActiveTransferFactory` returns the active handler
whose `RemoteAddr` is the given address, and leaves the server (its
`Listener`, settings and storage handle) and the sockets unchanged. -/
theorem active_factory_pure (s : FTPServer) (w : World) (addr : Option TCPAddr) :
    (ActiveTransferFactory s w addr).1 = .ActiveHandler addr ∧
    (ActiveTransferFactory s w addr).2.1 = s ∧
    (ActiveTransferFactory s w addr).2.2 = w ∧
    (ActiveTransferFactory s w none).1 = .ActiveHandler none :=
  ⟨rfl, rfl, rfl, rfl⟩


/-! ## Sequences of `Start` and `Stop` -/

theorem mem_openSockets (w : World) (id : Nat) :
    id ∈ w.openSockets ↔ id < w.opened.length ∧ id ∉ w.closed := by
  simp [World.openSockets]

theorem openSockets_nodup (w : World) : w.openSockets.Nodup :=
  (List.nodup_range _).filter _

/-- A duplicate-free list whose elements are all equal has at most one
element. -/
theorem length_le_one_of_all_eq {l : List Nat} (hn : l.Nodup) (a : Nat)
    (h : ∀ x, x ∈ l → x = a) : l.length ≤ 1 := by
  match l, hn, h with
  | [], _, _ => simp
  | [_], _, _ => simp
  | x :: y :: t, hn, h =>
    have hx := h x (by simp)
    have hy := h y (by simp)
    rw [List.nodup_cons] at hn
    exact absurd (by rw [hx, hy]; simp) hn.1

theorem SingleListener_Stop (p0 : Int) (st : FTPServer × World) (h : SingleListener p0 st) :
    SingleListener p0 (Stop st.1 st.2) := by
  obtain ⟨s, w⟩ := st
  obtain ⟨h1, h2, h3⟩ := h
  unfold Stop
  cases hl : s.Listener with
  | none => exact ⟨h1, by simpa [hl] using h2, h3⟩
  | some l =>
    have hempty : ∀ id, id ∉ ({ w with closed := w.closed ++ [l.id] } : World).openSockets := by
      intro id hid
      rw [mem_openSockets] at hid
      simp only [List.mem_append, List.mem_singleton, not_or] at hid
      have hopen : id ∈ w.openSockets := (mem_openSockets w id).2 ⟨hid.1, hid.2.1⟩
      have := h2 id hopen
      simp only [hl, Option.some.injEq] at this
      exact hid.2.2 (by rw [this])
    exact ⟨h1, fun id hid => absurd hid (hempty id), fun _ id hid => absurd hid (hempty id)⟩

theorem SingleListener_Start (p0 : Int) (bindErr : Option Error) (ephemeral : Int)
    (st st1 : FTPServer × World) (h : SingleListener p0 st)
    (hseq : p0 ≠ 0 ∨ st.1.Listener = none)
    (hstart : Start bindErr ephemeral st.1 st.2 = some st1) : SingleListener p0 st1 := by
  obtain ⟨s, w⟩ := st
  obtain ⟨h1, h2, h3⟩ := h
  simp only at h1 h2 h3 hseq hstart
  unfold Start Listen at hstart
  cases bindErr with
  | some e => simp at hstart
  | none =>
    simp only at hstart
    by_cases huse : w.portInUse (if s.setting.ListenPort = 0 then ephemeral else s.setting.ListenPort)
        = true
    · rw [if_pos huse] at hstart
      simp at hstart
    · rw [if_neg huse] at hstart
      simp only [Option.some.injEq] at hstart
      subst hstart
      have hempty : ∀ id, id ∉ w.openSockets := by
        intro id hid
        rcases hseq with hp | hnone
        · apply huse
          rw [h1, if_neg hp]
          unfold World.portInUse
          rw [List.any_eq_true]
          exact ⟨id, hid, by simpa using h3 hp id hid⟩
        · have := h2 id hid
          rw [hnone] at this
          cases this
      have hnew : ∀ id, id ∈ ({ w with opened := w.opened ++ [if s.setting.ListenPort = 0
          then ephemeral else s.setting.ListenPort] } : World).openSockets →
          id = w.opened.length := by
        intro id hid
        rw [mem_openSockets] at hid
        simp only [List.length_append, List.length_singleton] at hid
        by_contra hne
        exact hempty id ((mem_openSockets w id).2 ⟨by omega, hid.2⟩)
      refine ⟨h1, ?_, ?_⟩
      · intro id hid
        simp only
        rw [hnew id hid]
      · intro hp id hid
        simp only
        rw [hnew id hid, h1, if_neg hp]
        simp [List.getD_eq_getElem?_getD]

theorem SingleListener_run (p0 : Int) :
    ∀ (calls : List Call) (st st1 : FTPServer × World), SingleListener p0 st →
      (p0 ≠ 0 ∨ startsWhenIdle calls st = true) → run calls st = some st1 →
      SingleListener p0 st1 := by
  intro calls
  induction calls with
  | nil =>
    intro st st1 h _ hrun
    simp only [run, Option.some.injEq] at hrun
    exact hrun ▸ h
  | cons c cs ih =>
    intro st st1 h hseq hrun
    cases c with
    | Stop =>
      simp only [run] at hrun
      refine ih _ _ (SingleListener_Stop p0 st h) ?_ hrun
      rcases hseq with hp | hidle
      · exact Or.inl hp
      · right
        simpa [startsWhenIdle] using hidle
    | Start bindErr ephemeral =>
      simp only [run] at hrun
      cases hs : Start bindErr ephemeral st.1 st.2 with
      | none => rw [hs] at hrun; simp at hrun
      | some st2 =>
        rw [hs] at hrun
        simp only at hrun
        have hstep : p0 ≠ 0 ∨ st.1.Listener = none := by
          rcases hseq with hp | hidle
          · exact Or.inl hp
          · right
            simp only [startsWhenIdle, Bool.and_eq_true, Option.isNone_iff_eq_none] at hidle
            exact hidle.1
        refine ih _ _ (SingleListener_Start p0 bindErr ephemeral st st2 h hstep hs) ?_ hrun
        rcases hseq with hp | hidle
        · exact Or.inl hp
        · right
          simp only [startsWhenIdle, Bool.and_eq_true, hs] at hidle
          exact hidle.2

/-- C6 as stated fails: a server constructed for port 0 and started twice
holds the second socket in `Listener`, while the first socket (id 0, bound to
the port 40000 the operating system chose) is still open and no longer
referenced; two sockets are open. -/
theorem start_twice_leaves_socket_open :
    NewFTPServer (fun _ => ⟨"", 0⟩) (fun _ => .ok ⟨"memory"⟩) 0 ⟨"memory", []⟩ =
      (some ⟨none, 0, ⟨"", 0⟩, ⟨"memory"⟩⟩, none) ∧
    run [.Start none 40000, .Start none 40001]
        (⟨none, 0, ⟨"", 0⟩, ⟨"memory"⟩⟩, World.init) =
      some (⟨some ⟨1⟩, 0, ⟨"", 0⟩, ⟨"memory"⟩⟩, ⟨[40000, 40001], []⟩) ∧
    World.openSockets ⟨[40000, 40001], []⟩ = [0, 1] ∧
    (some ⟨1⟩ : Option NetListener) ≠ some ⟨0⟩ := by
  refine ⟨by decide, by decide, by decide, by decide⟩

/-- C6, amended: in every state reachable by a sequence of `Start` and `Stop`
calls from a server in a process that has opened no socket yet (a freshly
constructed server in particular), provided the configured listen port is
not 0 (a second bind of a fixed port fails and ends the process) or `Start`
is only called while the `Listener` field is nil, every socket opened by
`Start` that has not been closed is the one held in `Listener`, and at most
one socket is open. -/
theorem start_stop_single_listener (s0 : FTPServer) (calls : List Call) (s : FTPServer)
    (w : World)
    (hseq : s0.setting.ListenPort ≠ 0 ∨ startsWhenIdle calls (s0, World.init) = true)
    (hrun : run calls (s0, World.init) = some (s, w)) :
    (∀ id, id ∈ w.openSockets → s.Listener = some ⟨id⟩) ∧ w.openSockets.length ≤ 1 := by
  have hinit : SingleListener s0.setting.ListenPort (s0, World.init) :=
    ⟨rfl, fun id hid => by simp [World.openSockets, World.init] at hid,
      fun _ id hid => by simp [World.openSockets, World.init] at hid⟩
  have hinv := SingleListener_run s0.setting.ListenPort calls (s0, World.init) (s, w) hinit
    hseq hrun
  refine ⟨hinv.2.1, ?_⟩
  cases hl : s.Listener with
  | none =>
    have hempty : w.openSockets = [] := by
      apply List.eq_nil_iff_forall_not_mem.2
      intro id hid
      have := hinv.2.1 id hid
      simp only at this
      rw [hl] at this
      cases this
    simp [hempty]
  | some l =>
    apply length_le_one_of_all_eq (openSockets_nodup w) l.id
    intro id hid
    have := hinv.2.1 id hid
    simp only at this
    rw [hl] at this
    simp only [Option.some.injEq] at this
    rw [this]


/-- Witness for `start_stop_single_listener`: a server on port 21 that is
started, stopped twice and started again holds its one open socket. -/
theorem start_stop_single_listener_witness :
    startsWhenIdle [.Start none 0, .Stop, .Stop, .Start none 0]
        (⟨none, 0, ⟨"", 21⟩, ⟨"memory"⟩⟩, World.init) = true ∧
    run [.Start none 0, .Stop, .Stop, .Start none 0]
        (⟨none, 0, ⟨"", 21⟩, ⟨"memory"⟩⟩, World.init) =
      some (⟨some ⟨1⟩, 0, ⟨"", 21⟩, ⟨"memory"⟩⟩, ⟨[21, 21], [0]⟩) ∧
    (World.openSockets ⟨[21, 21], [0]⟩).length ≤ 1 :=
  ⟨by decide, by decide,
   (start_stop_single_listener ⟨none, 0, ⟨"", 21⟩, ⟨"memory"⟩⟩
      [.Start none 0, .Stop, .Stop, .Start none 0]
      ⟨some ⟨1⟩, 0, ⟨"", 21⟩, ⟨"memory"⟩⟩ ⟨[21, 21], [0]⟩
      (Or.inr (by decide)) (by decide)).2⟩

end Server
